import Mathlib

/-!
Verification of the API-key authorization, quota and usage-accounting
subsystem of the `api` repository (files `src/utils/json-db.js` and
`src/middleware/auth.js`), as a shallow embedding in Lean 4.

The JSON flat files `users.json`, `api-keys.json` and `logs.json` are
modelled by the record `DB`; each database method becomes a pure function
from a `DB` (plus the values the JavaScript code obtains from its
environment: fresh UUIDs, the current ISO timestamp `now`, the current
calendar-day string `today`) to a result together with the successor `DB`.
-/

namespace ApiSpec

/-- Model of the `bcryptjs` hashing primitive used by the code.  Real bcrypt
digests always begin with the characters `$2` (the modular-crypt format
marker); we model `bcrypt.hash(p, 10)` as the injective function prepending
that marker, and `bcrypt.compare` as the corresponding verification. -/
def bcryptHash (plain : String) : String := "$2" ++ plain

/-- Model of `bcrypt.compare(plain, hashed)`: true exactly when `hashed` is
the hash of `plain`. -/
def bcryptCompare (plain hashed : String) : Bool := hashed == bcryptHash plain

/-- JavaScript `s.substring(0, n)` (all strings involved are ASCII, so
code-unit indexing coincides with character indexing). -/
def jsSubstring (s : String) (n : Nat) : String := ⟨s.data.take n⟩

/-- JavaScript `s.startsWith(p)`. -/
def jsStartsWith (s p : String) : Bool := p.data.isPrefixOf s.data

/-- A record of `users.json` (created by `createUser`). -/
structure User where
  id : String
  username : String
  email : String
  password : String
  role : String
  createdAt : String
  lastLogin : Option String
  isActive : Bool
  apiLimit : Nat
  usageToday : Nat
  lastResetDate : Option String
deriving DecidableEq

/-- A record of `api-keys.json` (created by `createApiKey`). -/
structure ApiKeyRecord where
  id : String
  userId : String
  name : String
  key : String
  plainKey : String
  createdAt : String
  lastUsed : Option String
  usageCount : Nat
  isActive : Bool
  revokedAt : Option String
  rateLimit : Nat
  endpoints : List String
deriving DecidableEq

/-- A record of `logs.json` (created by `logApiUsage`). -/
structure LogEntry where
  id : String
  apiKey : String
  endpoint : String
  timestamp : String
deriving DecidableEq

/-- The mutable state of the flat-file store. -/
structure DB where
  users : List User
  apiKeys : List ApiKeyRecord
  logs : List LogEntry
deriving DecidableEq

/-- The object returned by `createApiKey` (the only place the plaintext key
is meant to be returned). -/
structure CreateKeyResponse where
  id : String
  name : String
  apiKey : String
  createdAt : String
deriving DecidableEq

/-- Result of `validateApiKey`.  The failure case carries no information at
all, mirroring the bare `{ valid: false }` object of the source. -/
inductive ValidationResult where
  | invalid
  | valid (userId keyId : String) (user : Option User) (rateLimit : Nat)
      (endpoints : List String)
deriving DecidableEq

/-- Outcome of the `authenticateApiKey` middleware. -/
inductive AuthResult where
  | missingKey
  | invalidKey
  | quotaExceeded
  | admitted (userId keyId : String)
deriving DecidableEq

/-- Whether the middleware let the request through to its handler. -/
def AuthResult.isAdmitted : AuthResult → Bool
  | .admitted _ _ => true
  | _ => false

/-- The `{ password, ...userWithoutPassword }` destructuring used whenever a
user object is returned to a caller. -/
def omitPassword (u : User) : User := { u with password := "" }

/-- `getUserById` (json-db.js:107-118): look the user up and strip the
password hash. -/
def getUserById (db : DB) (userId : String) : Option User :=
  (db.users.find? (fun u => u.id == userId)).map omitPassword

/-- `createUser` (json-db.js:47-82).  `uuid` and `now` stand for the fresh
`uuidv4()` and `new Date().toISOString()` the code draws; the thrown
`Error('User already exists')` becomes the `Except.error`. -/
def createUser (db : DB) (username email password uuid now : String) :
    Except String User × DB :=
  if db.users.any (fun u => u.email == email || u.username == username) then
    (.error "User already exists", db)
  else
    let newUser : User :=
      { id := uuid, username := username, email := email
        password := bcryptHash password, role := "user", createdAt := now
        lastLogin := none, isActive := true, apiLimit := 1000
        usageToday := 0, lastResetDate := none }
    (.ok (omitPassword newUser), { db with users := db.users ++ [newUser] })

/-- `createApiKey` (json-db.js:121-151).  `idUuid` and `keyUuid` stand for
the two `uuidv4()` draws (record id and key material).  Note the source
stores both the bcrypt hash (`key`) and the plaintext (`plainKey`) in the
persisted record. -/
def createApiKey (db : DB) (userId name idUuid keyUuid now : String) :
    CreateKeyResponse × DB :=
  let apiKey := "shd_" ++ keyUuid.replace "-" ""
  let hashedKey := bcryptHash apiKey
  let newApiKey : ApiKeyRecord :=
    { id := idUuid, userId := userId, name := name
      key := hashedKey, plainKey := apiKey, createdAt := now
      lastUsed := none, usageCount := 0, isActive := true, revokedAt := none
      rateLimit := 100, endpoints := ["*"] }
  ({ id := newApiKey.id, name := newApiKey.name, apiKey := apiKey
     createdAt := newApiKey.createdAt },
   { db with apiKeys := db.apiKeys ++ [newApiKey] })

/-- The `for (const keyData of data.apiKeys)` loop of `validateApiKey`
(json-db.js:157-178): find the first record whose hash matches the
presented key and which is active, and update its `lastUsed`/`usageCount`
in place.  Returns the updated record together with the updated list. -/
def validateLoop (apiKey now : String) :
    List ApiKeyRecord → Option (ApiKeyRecord × List ApiKeyRecord)
  | [] => none
  | k :: rest =>
    if bcryptCompare apiKey k.key && k.isActive then
      let updated := { k with lastUsed := some now, usageCount := k.usageCount + 1 }
      some (updated, updated :: rest)
    else
      (validateLoop apiKey now rest).map (fun p => (p.1, k :: p.2))

/-- `validateApiKey` (json-db.js:153-181): on a match, persist the usage
bump, resolve the owning user, and return the identity context; otherwise
return the bare failure value and leave the store untouched. -/
def validateApiKey (db : DB) (apiKey now : String) : ValidationResult × DB :=
  match validateLoop apiKey now db.apiKeys with
  | some (keyData, apiKeys) =>
      let db := { db with apiKeys := apiKeys }
      (.valid keyData.userId keyData.id (getUserById db keyData.userId)
        keyData.rateLimit keyData.endpoints, db)
  | none => (.invalid, db)

/-- The per-key projection returned by `getApiKeysByUser`. -/
structure KeySummary where
  id : String
  name : String
  createdAt : String
  lastUsed : Option String
  usageCount : Nat
deriving DecidableEq

/-- `getApiKeysByUser` (json-db.js:183-194): active keys of the user,
projected to the summary fields (neither `key` nor `plainKey` appears). -/
def getApiKeysByUser (db : DB) (userId : String) : List KeySummary :=
  (db.apiKeys.filter (fun k => k.userId == userId && k.isActive)).map
    (fun k => { id := k.id, name := k.name, createdAt := k.createdAt
                lastUsed := k.lastUsed, usageCount := k.usageCount })

/-- The `findIndex` + in-place mutation of `revokeApiKey`: deactivate the
first record matching both ids, or report that none exists. -/
def revokeLoop (keyId userId now : String) :
    List ApiKeyRecord → Option (List ApiKeyRecord)
  | [] => none
  | k :: rest =>
    if k.id == keyId && k.userId == userId then
      some ({ k with isActive := false, revokedAt := some now } :: rest)
    else
      (revokeLoop keyId userId now rest).map (fun l => k :: l)

/-- `revokeApiKey` (json-db.js:196-210).  The thrown
`Error('API key not found')` becomes the `Except.error`. -/
def revokeApiKey (db : DB) (keyId userId now : String) :
    Except String Bool × DB :=
  match revokeLoop keyId userId now db.apiKeys with
  | some apiKeys => (.ok true, { db with apiKeys := apiKeys })
  | none => (.error "API key not found", db)

/-- The head-insert-then-truncate performed on `logs.json` by `logApiUsage`
(json-db.js:226-231). -/
def pushLog (logs : List LogEntry) (entry : LogEntry) : List LogEntry :=
  let logs := entry :: logs
  if logs.length > 1000 then logs.take 1000 else logs

/-- The day-rollover branch of `updateUserUsage` applied to the matched
user (json-db.js:248-259): reset when the stored reset date differs from
today, then increment. -/
def updateUsageLoop (userId today : String) : List User → List User
  | [] => []
  | u :: rest =>
    if u.id == userId then
      let u := if u.lastResetDate == some today then u
               else { u with usageToday := 0, lastResetDate := some today }
      { u with usageToday := u.usageToday + 1 } :: rest
    else
      u :: updateUsageLoop userId today rest

/-- `updateUserUsage` (json-db.js:244-263). -/
def updateUserUsage (db : DB) (userId today : String) : DB :=
  { db with users := updateUsageLoop userId today db.users }

/-- `logApiUsage` (json-db.js:213-242): append the (plaintext-prefix)
truncated entry to the head of the capped log, then run the redundant
second `validateApiKey` pass and, if it succeeds, bump the owner's daily
counter. -/
def logApiUsage (db : DB) (apiKey endpoint uuid now today : String) :
    LogEntry × DB :=
  let entry : LogEntry :=
    { id := uuid, apiKey := jsSubstring apiKey 8 ++ "..."
      endpoint := endpoint, timestamp := now }
  let db := { db with logs := pushLog db.logs entry }
  match validateApiKey db apiKey now with
  | (.valid userId _ _ _ _, db) => (entry, updateUserUsage db userId today)
  | (.invalid, db) => (entry, db)

/-- The statistics object returned by `getUserUsage`. -/
structure UsageStats where
  totalRequests : Nat
  todayRequests : Nat
  dailyLimit : Nat
  usageToday : Nat
  lastRequest : Option String
deriving DecidableEq

/-- `getUserUsage` (json-db.js:265-297).  `toDateStr` models the library
call `new Date(ts).toDateString()`; `today` is its value at the current
instant.  The log-to-key join compares each log entry (which holds a
truncated plaintext) against the first 8 characters of the stored bcrypt
hash.  The `|| 1000` fallback of `user.apiLimit` is JavaScript falsiness,
hence the zero test. -/
def getUserUsage (db : DB) (userId : String) (toDateStr : String → String)
    (today : String) : Option UsageStats :=
  (db.users.find? (fun u => u.id == userId)).map fun user =>
    let userApiKeys :=
      (db.apiKeys.filter (fun k => k.userId == userId)).map (fun k => k.key)
    let userLogs := db.logs.filter
      (fun log => userApiKeys.any (fun key => jsStartsWith log.apiKey (jsSubstring key 8)))
    let todayLogs := userLogs.filter (fun log => toDateStr log.timestamp == today)
    { totalRequests := userLogs.length
      todayRequests := todayLogs.length
      dailyLimit := if user.apiLimit == 0 then 1000 else user.apiLimit
      usageToday := user.usageToday
      lastRequest := (userLogs.head?).map (fun log => log.timestamp) }

/-- `authenticateApiKey` (auth.js:5-52): extract the key (already reduced
here to `Option String`: header, query or body, first non-empty), validate
it, then apply the quota check `user.usageToday >= user.apiLimit` on the
user snapshot returned by validation. -/
def authenticateApiKey (db : DB) (apiKey : Option String) (now : String) :
    AuthResult × DB :=
  match apiKey with
  | none => (.missingKey, db)
  | some apiKey =>
    match validateApiKey db apiKey now with
    | (.invalid, db) => (.invalidKey, db)
    | (.valid userId keyId user _ _, db) =>
      match user with
      | some u =>
        if u.usageToday ≥ u.apiLimit then (.quotaExceeded, db)
        else (.admitted userId keyId, db)
      | none => (.admitted userId keyId, db)

/-- One full request: the middleware admits or rejects; an admitted request
reaches its handler, which records it with `db.logApiUsage(apiKey, ...)`
(as every route handler under `src/api` does). -/
def handleRequest (db : DB) (apiKey endpoint uuid now today : String) :
    AuthResult × DB :=
  match authenticateApiKey db (some apiKey) now with
  | (.admitted userId keyId, db) =>
      (.admitted userId keyId, (logApiUsage db apiKey endpoint uuid now today).2)
  | (r, db) => (r, db)

/-- `n` consecutive identical requests (same key, endpoint and instant). -/
def runRequests (db : DB) (apiKey endpoint uuid now today : String) :
    Nat → DB
  | 0 => db
  | n + 1 =>
      runRequests ((handleRequest db apiKey endpoint uuid now today).2)
        apiKey endpoint uuid now today n

/-- Sequential insertion of a list of log entries through `pushLog`,
oldest first. -/
def insertLogs (logs : List LogEntry) : List LogEntry → List LogEntry
  | [] => logs
  | e :: rest => insertLogs (pushLog logs e) rest

/-- A single-identity, single-key store, used to state the per-identity
quota claims. -/
def mkDb (u : User) (k : ApiKeyRecord) : DB :=
  { users := [u], apiKeys := [k], logs := [] }

/-- The cap applied to `logs.json` after every insert. -/
def capLogs (logs : List LogEntry) : List LogEntry :=
  if logs.length > 1000 then logs.take 1000 else logs

/-! ### Sample records used by the concrete witnesses -/

/-- A concrete registered identity. -/
def sampleUser : User :=
  { id := "u1", username := "alice", email := "alice@x.com"
    password := bcryptHash "secret1", role := "user", createdAt := "t0"
    lastLogin := none, isActive := true, apiLimit := 2, usageToday := 0
    lastResetDate := some "Mon Jan 01 2024" }

/-- A concrete active API key record owned by `sampleUser`, holding the
hash of the plaintext `shd_abc`. -/
def sampleKey : ApiKeyRecord :=
  { id := "k1", userId := "u1", name := "default"
    key := bcryptHash "shd_abc", plainKey := "shd_abc", createdAt := "t0"
    lastUsed := none, usageCount := 0, isActive := true, revokedAt := none
    rateLimit := 100, endpoints := ["*"] }

/-- A concrete usage-log entry as `logApiUsage` would record it for the
plaintext key `shd_abc`. -/
def sampleEntry : LogEntry :=
  { id := "l1", apiKey := jsSubstring "shd_abc" 8 ++ "..."
    endpoint := "qrcode_generate", timestamp := "t1" }

/-! ### Log retention -/

lemma pushLog_eq_capLogs (logs : List LogEntry) (e : LogEntry) :
    pushLog logs e = capLogs (e :: logs) := rfl

lemma capLogs_length_le (l : List LogEntry) (h : l.length ≤ 1001) :
    (capLogs l).length ≤ 1000 := by
  unfold capLogs
  split
  · simp
  · next hlen => omega

lemma pushLog_length_le (logs : List LogEntry) (e : LogEntry)
    (h : logs.length ≤ 1000) : (pushLog logs e).length ≤ 1000 := by
  rw [pushLog_eq_capLogs]
  exact capLogs_length_le _ (by simp; omega)

lemma capLogs_append (a b : List LogEntry) :
    capLogs (a ++ capLogs b) = capLogs (a ++ b) := by
  unfold capLogs
  by_cases hb : b.length > 1000
  · rw [if_pos hb]
    by_cases ha : (a ++ b.take 1000).length > 1000
    · rw [if_pos ha, if_pos (by simp at ha ⊢; omega)]
      rw [List.take_append_eq_append_take, List.take_append_eq_append_take,
        List.take_take]
      have hmin : (1000 - a.length) ⊓ 1000 = 1000 - a.length := by omega
      rw [hmin]
    · have ha0 : a = [] := by
        have h2 : a.length = 0 := by
          simp only [List.length_append, List.length_take] at ha
          omega
        exact List.length_eq_zero.mp h2
      subst ha0
      rw [if_neg ha]
      simp only [List.nil_append]
      rw [if_pos hb]
  · rw [if_neg hb]

lemma insertLogs_eq_capLogs (es : List LogEntry) :
    ∀ logs, logs.length ≤ 1000 →
      insertLogs logs es = capLogs (es.reverse ++ logs) := by
  induction es with
  | nil =>
    intro logs h
    unfold insertLogs capLogs
    rw [List.reverse_nil, List.nil_append, if_neg (by omega)]
  | cons e rest ih =>
    intro logs h
    unfold insertLogs
    rw [ih (pushLog logs e) (pushLog_length_le logs e h), pushLog_eq_capLogs,
      capLogs_append, List.reverse_cons, List.append_assoc, List.singleton_append]

/-- C5.  The usage log is most-recent-first and capped at 1000: inserting
1001 entries (oldest first) through the head-insert-then-truncate step of
`logApiUsage` leaves exactly the 1000 most recent entries, newest first. -/
theorem logRetention_thousand_newest_first (es : List LogEntry)
    (h : es.length = 1001) :
    insertLogs [] es = es.reverse.take 1000 ∧
      (insertLogs [] es).length = 1000 := by
  have hc := insertLogs_eq_capLogs es [] (by simp)
  rw [List.append_nil] at hc
  have h1 : insertLogs [] es = es.reverse.take 1000 := by
    rw [hc]
    unfold capLogs
    rw [if_pos (by simp [h])]
  refine ⟨h1, ?_⟩
  rw [h1]
  simp [h]

/-- Witness for C5 at a concrete 1001-entry insertion sequence. -/
theorem logRetention_thousand_newest_first_witness :
    (List.replicate 1001 sampleEntry).length = 1001 ∧
      (insertLogs [] (List.replicate 1001 sampleEntry) =
          (List.replicate 1001 sampleEntry).reverse.take 1000 ∧
        (insertLogs [] (List.replicate 1001 sampleEntry)).length = 1000) :=
  ⟨by rw [List.length_replicate],
    logRetention_thousand_newest_first _ (by rw [List.length_replicate])⟩

/-! ### Key creation persists the plaintext -/

/-- C1.  Contrary to the specification, `createApiKey` persists the
plaintext secret in recoverable form: the record written to
`api-keys.json` carries the plaintext in its `plainKey` field, equal to
the plaintext returned in the creation response (the source's own comment
says the plain key is "only for initial response", yet it is stored). -/
theorem createApiKey_persists_plaintext (db : DB)
    (userId name idUuid keyUuid now : String) :
    ∃ k ∈ ((createApiKey db userId name idUuid keyUuid now).2).apiKeys,
      k.plainKey = (createApiKey db userId name idUuid keyUuid now).1.apiKey ∧
      k.plainKey = "shd_" ++ keyUuid.replace "-" "" := by
  unfold createApiKey
  exact ⟨_, List.mem_append_right _ (List.mem_singleton_self _), rfl, rfl⟩

/-! ### Duplicate registration -/

/-- C6.  `createUser` fails with the duplicate-identity error whenever
some stored record (active or inactive) already carries the requested
email or username, and in that case the store is returned unchanged. -/
theorem createUser_duplicate_rejected (db : DB)
    (username email password uuid now : String)
    (h : ∃ u ∈ db.users, u.email = email ∨ u.username = username) :
    createUser db username email password uuid now =
      (.error "User already exists", db) := by
  obtain ⟨u, hu, hcase⟩ := h
  unfold createUser
  rw [if_pos]
  refine List.any_eq_true.mpr ⟨u, hu, ?_⟩
  cases hcase with
  | inl h1 => simp [h1]
  | inr h1 => simp [h1]

/-- Witness for C6: registering `alice@x.com` again on a store already
holding `sampleUser` is rejected and leaves the store unchanged. -/
theorem createUser_duplicate_rejected_witness :
    createUser { users := [sampleUser], apiKeys := [], logs := [] }
        "bob" "alice@x.com" "pw" "u9" "t9" =
      (.error "User already exists",
        { users := [sampleUser], apiKeys := [], logs := [] }) :=
  createUser_duplicate_rejected _ _ _ _ _ _
    ⟨sampleUser, List.mem_singleton_self _, Or.inl rfl⟩

/-! ### Key revocation -/

lemma revokeLoop_eq_none_iff (keyId userId now : String)
    (l : List ApiKeyRecord) :
    revokeLoop keyId userId now l = none ↔
      ∀ k ∈ l, ¬(k.id = keyId ∧ k.userId = userId) := by
  induction l with
  | nil => simp [revokeLoop]
  | cons k rest ih =>
    unfold revokeLoop
    by_cases hc : (k.id == keyId && k.userId == userId) = true
    · rw [if_pos hc]
      simp only [Bool.and_eq_true, beq_iff_eq] at hc
      simp [hc]
    · rw [if_neg hc]
      simp only [Bool.and_eq_true, beq_iff_eq] at hc
      rw [Option.map_eq_none', ih]
      constructor
      · intro h k2 hk2
        cases List.mem_cons.mp hk2 with
        | inl heq => subst heq; exact fun hids => hc ⟨hids.1, hids.2⟩
        | inr hmem => exact h k2 hmem
      · intro h k2 hk2
        exact h k2 (List.mem_cons_of_mem _ hk2)

lemma revokeLoop_found (keyId userId now : String)
    (l₁ l₂ : List ApiKeyRecord) (k₀ : ApiKeyRecord)
    (hid : k₀.id = keyId) (huid : k₀.userId = userId)
    (hskip : ∀ k ∈ l₁, ¬(k.id = keyId ∧ k.userId = userId)) :
    revokeLoop keyId userId now (l₁ ++ k₀ :: l₂) =
      some (l₁ ++ { k₀ with isActive := false, revokedAt := some now } :: l₂) := by
  induction l₁ with
  | nil =>
    rw [List.nil_append, List.nil_append]
    unfold revokeLoop
    rw [if_pos (by simp [hid, huid])]
  | cons k rest ih =>
    rw [List.cons_append, List.cons_append]
    unfold revokeLoop
    rw [if_neg, ih (fun k hk => hskip k (List.mem_cons_of_mem _ hk))]
    · rfl
    · have := hskip k (List.mem_cons_self _ _)
      simp only [Bool.and_eq_true, beq_iff_eq]
      exact fun hc => this hc

/-- The concrete store for the C7 counterexample: its only key with id
`k1` owned by `u1` is already inactive (revoked). -/
def inactiveKeyDb : DB :=
  { users := []
    apiKeys := [{ sampleKey with isActive := false, revokedAt := some "t1" }]
    logs := [] }

/-- C7 counterexample.  The claim says `revokeApiKey` fails with
`NotFound` exactly when no *active* key with that id belongs to that
identity.  In `inactiveKeyDb` no active key `k1` of `u1` exists, yet the
call succeeds: the lookup ignores the `isActive` flag. -/
theorem revokeApiKey_inactive_key_succeeds :
    (inactiveKeyDb.apiKeys.all
        (fun k => !(k.isActive && k.id == "k1" && k.userId == "u1")) = true) ∧
      (revokeApiKey inactiveKeyDb "k1" "u1" "t2").1 = .ok true := by
  constructor
  · decide
  · rfl

/-- C7 as amended: `revokeApiKey` fails with `NotFound` exactly when no
key — active *or already revoked* — with that id belongs to that
identity; on success the first matching record is marked inactive with a
revocation timestamp, in place, and no record is removed. -/
theorem revokeApiKey_spec :
    (∀ (db : DB) (keyId userId now : String),
      (∀ k ∈ db.apiKeys, ¬(k.id = keyId ∧ k.userId = userId)) ↔
        revokeApiKey db keyId userId now = (.error "API key not found", db)) ∧
    (∀ (db : DB) (l₁ l₂ : List ApiKeyRecord) (k₀ : ApiKeyRecord)
        (keyId userId now : String),
      db.apiKeys = l₁ ++ k₀ :: l₂ → k₀.id = keyId → k₀.userId = userId →
      (∀ k ∈ l₁, ¬(k.id = keyId ∧ k.userId = userId)) →
      revokeApiKey db keyId userId now =
        (.ok true,
          { db with apiKeys :=
              l₁ ++ { k₀ with isActive := false, revokedAt := some now } :: l₂ })) := by
  constructor
  · intro db keyId userId now
    constructor
    · intro h
      unfold revokeApiKey
      rw [(revokeLoop_eq_none_iff keyId userId now db.apiKeys).mpr h]
    · intro h
      unfold revokeApiKey at h
      cases hl : revokeLoop keyId userId now db.apiKeys with
      | some l2 => rw [hl] at h; cases h
      | none => exact (revokeLoop_eq_none_iff keyId userId now db.apiKeys).mp hl
  · intro db l₁ l₂ k₀ keyId userId now hsplit hid huid hskip
    unfold revokeApiKey
    rw [hsplit, revokeLoop_found keyId userId now l₁ l₂ k₀ hid huid hskip]

/-- Witness for C7 (amended): revoking the active key `k1` of `u1`
succeeds, flips `isActive`, stamps `revokedAt` and keeps the record. -/
theorem revokeApiKey_spec_witness :
    revokeApiKey { users := [sampleUser], apiKeys := [sampleKey], logs := [] }
        "k1" "u1" "t2" =
      (.ok true,
        { users := [sampleUser]
          apiKeys := [{ sampleKey with isActive := false, revokedAt := some "t2" }]
          logs := [] }) :=
  revokeApiKey_spec.2 _ [] [] sampleKey "k1" "u1" "t2" rfl rfl rfl (by simp)

/-! ### Validation fails closed -/

lemma validateLoop_eq_none (apiKey now : String) (l : List ApiKeyRecord)
    (h : ∀ k ∈ l, bcryptCompare apiKey k.key = true → k.isActive = false) :
    validateLoop apiKey now l = none := by
  induction l with
  | nil => rfl
  | cons k rest ih =>
    unfold validateLoop
    rw [if_neg, ih (fun k hk => h k (List.mem_cons_of_mem _ hk))]
    · rfl
    · have hk := h k (List.mem_cons_self _ _)
      simp only [Bool.and_eq_true]
      rintro ⟨hcmp, hact⟩
      rw [hk hcmp] at hact
      cases hact

/-- C4.  `validateApiKey` fails closed.  First conjunct: whenever every
hash-matching record is inactive — which covers both "no record matches"
and "only revoked records match" — the result is the bare `.invalid`
value (a constructor carrying no fields, so the two causes are
indistinguishable) and the store is left untouched.  Second conjunct:
after `revokeApiKey` succeeds on the unique record matching a presented
key, validating that key returns `.invalid`. -/
theorem validateApiKey_fails_closed :
    (∀ (db : DB) (apiKey now : String),
      (∀ k ∈ db.apiKeys, bcryptCompare apiKey k.key = true → k.isActive = false) →
      validateApiKey db apiKey now = (.invalid, db)) ∧
    (∀ (db : DB) (l₁ l₂ : List ApiKeyRecord) (k₀ : ApiKeyRecord)
        (apiKey keyId userId now now2 : String),
      db.apiKeys = l₁ ++ k₀ :: l₂ →
      bcryptCompare apiKey k₀.key = true →
      k₀.id = keyId → k₀.userId = userId →
      (∀ k ∈ l₁, ¬(k.id = keyId ∧ k.userId = userId)) →
      (∀ k ∈ l₁ ++ l₂, bcryptCompare apiKey k.key = false) →
      ∃ db2, revokeApiKey db keyId userId now = (.ok true, db2) ∧
        validateApiKey db2 apiKey now2 = (.invalid, db2)) := by
  constructor
  · intro db apiKey now h
    unfold validateApiKey
    rw [validateLoop_eq_none apiKey now db.apiKeys h]
  · intro db l₁ l₂ k₀ apiKey keyId userId now now2 hsplit hcmp hid huid hskip hnomatch
    refine ⟨{ db with apiKeys :=
        l₁ ++ { k₀ with isActive := false, revokedAt := some now } :: l₂ }, ?_, ?_⟩
    · unfold revokeApiKey
      rw [hsplit, revokeLoop_found keyId userId now l₁ l₂ k₀ hid huid hskip]
    unfold validateApiKey
    rw [validateLoop_eq_none]
    intro k hk
    rcases List.mem_append.mp hk with hk1 | hk2
    · intro hc
      exact absurd hc (by rw [hnomatch k (List.mem_append_left _ hk1)]; simp)
    · rcases List.mem_cons.mp hk2 with heq | hk3
      · subst heq; intro _; rfl
      · intro hc
        exact absurd hc (by rw [hnomatch k (List.mem_append_right _ hk3)]; simp)

/-- Witness for C4: on a store whose only matching key is revoked,
validation of `shd_abc` returns the bare failure; and revoking the live
key of the one-key store makes validation fail afterward. -/
theorem validateApiKey_fails_closed_witness :
    validateApiKey inactiveKeyDb "shd_abc" "t3" = (.invalid, inactiveKeyDb) ∧
      ∃ db2,
        revokeApiKey { users := [sampleUser], apiKeys := [sampleKey], logs := [] }
            "k1" "u1" "t2" = (.ok true, db2) ∧
          validateApiKey db2 "shd_abc" "t3" = (.invalid, db2) :=
  ⟨validateApiKey_fails_closed.1 inactiveKeyDb "shd_abc" "t3" (by decide),
    validateApiKey_fails_closed.2 _ [] [] sampleKey "shd_abc" "k1" "u1" "t2" "t3"
      rfl (by decide) rfl rfl (by simp) (by simp)⟩

/-! ### Idempotent identity resolution -/

lemma validateLoop_again (apiKey now1 now2 : String)
    (l l2 : List ApiKeyRecord) (m : ApiKeyRecord)
    (h : validateLoop apiKey now1 l = some (m, l2)) :
    ∃ m2 l3, validateLoop apiKey now2 l2 = some (m2, l3) ∧
      m2.userId = m.userId ∧ m2.id = m.id := by
  induction l generalizing l2 m with
  | nil => cases h
  | cons k rest ih =>
    unfold validateLoop at h
    by_cases hc : (bcryptCompare apiKey k.key && k.isActive) = true
    · rw [if_pos hc] at h
      injection h with h
      injection h with hm hl
      subst hm
      subst hl
      unfold validateLoop
      split
      · exact ⟨_, _, rfl, rfl, rfl⟩
      · next hfalse => exact absurd hc hfalse
    · rw [if_neg hc] at h
      cases hrest : validateLoop apiKey now1 rest with
      | none => rw [hrest] at h; cases h
      | some p =>
        rw [hrest] at h
        injection h with h
        injection h with hm hl
        subst hm
        subst hl
        obtain ⟨m2, l3, hloop, hids⟩ := ih p.2 p.1 (by rw [hrest])
        refine ⟨m2, k :: l3, ?_, hids⟩
        unfold validateLoop
        rw [if_neg hc, hloop]
        rfl

/-- C8.  `validateApiKey` is idempotent with respect to identity
resolution: if a call resolves the presented key to `(userId, keyId)`,
a second call on the mutated store (where the matched record's
`lastUsed`/`usageCount` were updated) resolves it to the same
`(userId, keyId)`. -/
theorem validateApiKey_idempotent_identity (db db2 : DB)
    (apiKey now1 now2 userId keyId : String) (user : Option User)
    (rateLimit : Nat) (endpoints : List String)
    (h : validateApiKey db apiKey now1 =
      (.valid userId keyId user rateLimit endpoints, db2)) :
    ∃ user2 rateLimit2 endpoints2 db3,
      validateApiKey db2 apiKey now2 =
        (.valid userId keyId user2 rateLimit2 endpoints2, db3) := by
  unfold validateApiKey at h ⊢
  cases hl : validateLoop apiKey now1 db.apiKeys with
  | none => rw [hl] at h; cases h
  | some p =>
    rw [hl] at h
    injection h with h1 h2
    injection h1 with huid hkid huser hrl heps
    obtain ⟨m2, l3, hloop, hmuid, hmid⟩ :=
      validateLoop_again apiKey now1 now2 db.apiKeys p.2 p.1 (by rw [hl])
    subst h2
    have hpa : ({ users := db.users, apiKeys := p.2, logs := db.logs } : DB).apiKeys = p.2 := rfl
    simp only [hpa, hloop]
    exact ⟨_, _, _, _, by rw [hmuid, hmid, huid, hkid]⟩

/-- Witness for C8: validating `shd_abc` twice in a row on the one-key
store resolves to `("u1", "k1")` both times. -/
theorem validateApiKey_idempotent_identity_witness :
    ∃ user2 rateLimit2 endpoints2 db3,
      validateApiKey
          ((validateApiKey { users := [sampleUser], apiKeys := [sampleKey], logs := [] }
            "shd_abc" "t1").2) "shd_abc" "t2" =
        (.valid "u1" "k1" user2 rateLimit2 endpoints2, db3) :=
  validateApiKey_idempotent_identity
    { users := [sampleUser], apiKeys := [sampleKey], logs := [] }
    ((validateApiKey { users := [sampleUser], apiKeys := [sampleKey], logs := [] }
      "shd_abc" "t1").2)
    "shd_abc" "t1" "t2" "u1" "k1" (some (omitPassword sampleUser)) 100 ["*"]
    (by decide)

/-! ### Evaluating one request on a one-user, one-key store -/

lemma validateApiKey_single (u : User) (k : ApiKeyRecord) (ls : List LogEntry)
    (plain now : String)
    (hkey : k.key = bcryptHash plain) (hact : k.isActive = true)
    (howner : k.userId = u.id) :
    validateApiKey { users := [u], apiKeys := [k], logs := ls } plain now =
      (.valid k.userId k.id (some (omitPassword u)) k.rateLimit k.endpoints,
        { users := [u]
          apiKeys := [{ k with lastUsed := some now, usageCount := k.usageCount + 1 }]
          logs := ls }) := by
  have hcmp : (bcryptCompare plain k.key && k.isActive) = true := by
    simp [bcryptCompare, hkey, hact]
  unfold validateApiKey validateLoop
  rw [if_pos hcmp]
  unfold getUserById
  simp [howner, List.find?]

lemma handleRequest_single (u : User) (k : ApiKeyRecord) (ls : List LogEntry)
    (plain endpoint uuid now today : String)
    (hkey : k.key = bcryptHash plain) (hact : k.isActive = true)
    (howner : k.userId = u.id) :
    handleRequest { users := [u], apiKeys := [k], logs := ls }
        plain endpoint uuid now today =
      if u.usageToday ≥ u.apiLimit then
        (.quotaExceeded,
          { users := [u]
            apiKeys := [{ k with lastUsed := some now, usageCount := k.usageCount + 1 }]
            logs := ls })
      else
        (.admitted u.id k.id,
          { users := [if u.lastResetDate == some today
                      then { u with usageToday := u.usageToday + 1 }
                      else { u with usageToday := 1, lastResetDate := some today }]
            apiKeys := [{ k with lastUsed := some now, usageCount := k.usageCount + 2 }]
            logs := pushLog ls { id := uuid, apiKey := jsSubstring plain 8 ++ "..."
                                 endpoint := endpoint, timestamp := now } }) := by
  have hval := validateApiKey_single u k ls plain now hkey hact howner
  by_cases hq : u.usageToday ≥ u.apiLimit
  · rw [if_pos hq]
    unfold handleRequest authenticateApiKey
    simp only [hval]
    simp [omitPassword, hq]
  · rw [if_neg hq]
    unfold handleRequest authenticateApiKey
    simp only [hval]
    have hval2 := validateApiKey_single u
      { k with lastUsed := some now, usageCount := k.usageCount + 1 }
      (pushLog ls { id := uuid, apiKey := jsSubstring plain 8 ++ "..."
                    endpoint := endpoint, timestamp := now })
      plain now hkey hact howner
    unfold logApiUsage
    simp [omitPassword, hq]
    simp only [hval2]
    by_cases hr : u.lastResetDate = some today
    · simp [omitPassword, hq, hr, updateUserUsage, updateUsageLoop, howner]
    · simp [omitPassword, hq, hr, updateUserUsage, updateUsageLoop, howner]

/-! ### Day rollover never reaches a maxed-out identity -/

/-- C2 (divergence).  An identity at its daily limit whose last reset date
`d` lies in the past (`d ≠ today`) is *still* rejected with the quota
error on its next request, and its counter is not reset: the reset logic
lives in `updateUserUsage`, which only runs for admitted requests, while
the admission check in the middleware reads the stale counter first. -/
theorem quota_lockout_after_day_rollover (u : User) (k : ApiKeyRecord)
    (plain endpoint uuid now today d : String)
    (hkey : k.key = bcryptHash plain) (hact : k.isActive = true)
    (howner : k.userId = u.id)
    (hreset : u.lastResetDate = some d) (hday : d ≠ today)
    (hquota : u.usageToday ≥ u.apiLimit) :
    (handleRequest (mkDb u k) plain endpoint uuid now today).1 = .quotaExceeded ∧
      ((handleRequest (mkDb u k) plain endpoint uuid now today).2).users = [u] := by
  have h := handleRequest_single u k [] plain endpoint uuid now today hkey hact howner
  rw [if_pos hquota] at h
  unfold mkDb
  rw [h]
  exact ⟨rfl, rfl⟩

/-- Witness for C2: `sampleUser` with counter 2 of 2, last reset on
Jan 01, next request on Jan 02 — denied, counter untouched. -/
theorem quota_lockout_after_day_rollover_witness :
    (handleRequest (mkDb { sampleUser with usageToday := 2 } sampleKey)
        "shd_abc" "e" "l9" "t5" "Tue Jan 02 2024").1 = .quotaExceeded ∧
      ((handleRequest (mkDb { sampleUser with usageToday := 2 } sampleKey)
        "shd_abc" "e" "l9" "t5" "Tue Jan 02 2024").2).users =
        [{ sampleUser with usageToday := 2 }] :=
  quota_lockout_after_day_rollover _ _ _ _ _ _ _ "Mon Jan 01 2024"
    rfl rfl rfl rfl (by decide) (by decide)

/-! ### Quota enforcement within one day -/

lemma runRequests_closed (plain endpoint uuid now today : String) :
    ∀ (i : Nat) (u : User) (k : ApiKeyRecord) (ls : List LogEntry),
      k.key = bcryptHash plain → k.isActive = true → k.userId = u.id →
      u.lastResetDate = some today →
      u.usageToday + i ≤ u.apiLimit →
      ∃ lu ls2,
        runRequests { users := [u], apiKeys := [k], logs := ls }
            plain endpoint uuid now today i =
          { users := [{ u with usageToday := u.usageToday + i }]
            apiKeys := [{ k with lastUsed := lu, usageCount := k.usageCount + 2 * i }]
            logs := ls2 } := by
  intro i
  induction i with
  | zero =>
    intro u k ls _ _ _ _ _
    exact ⟨k.lastUsed, ls, rfl⟩
  | succ n ih =>
    intro u k ls hkey hact howner hreset hle
    rw [hreset]
    unfold runRequests
    have h := handleRequest_single u k ls plain endpoint uuid now today hkey hact howner
    rw [if_neg (by omega)] at h
    simp [hreset] at h
    rw [h]
    obtain ⟨lu, ls2, h2⟩ := ih
      { u with usageToday := u.usageToday + 1, lastResetDate := some today }
      { k with lastUsed := some now, usageCount := k.usageCount + 2 }
      (pushLog ls { id := uuid, apiKey := jsSubstring plain 8 ++ "..."
                    endpoint := endpoint, timestamp := now })
      hkey hact howner rfl
      (show u.usageToday + 1 + n ≤ u.apiLimit by omega)
    refine ⟨lu, ls2, ?_⟩
    rw [h2]
    have e1 : u.usageToday + 1 + n = u.usageToday + (n + 1) := by omega
    have e2 : k.usageCount + 2 + 2 * n = k.usageCount + 2 * (n + 1) := by omega
    simp only [e1, e2]

/-- C3.  The admit decision: a request is rejected with the quota error
exactly when `usageToday ≥ apiLimit` (first conjunct, at any counter value
`j`); the check runs before the increment, so starting from a fresh
counter with `apiLimit = N`, each of the first `N` recorded requests of
the day is admitted and the `(N+1)`-th is rejected with the quota error
(second and third conjuncts). -/
theorem quota_denies_exactly_at_limit (N : Nat) (u : User) (k : ApiKeyRecord)
    (plain endpoint uuid now today : String)
    (hkey : k.key = bcryptHash plain) (hact : k.isActive = true)
    (howner : k.userId = u.id) (hreset : u.lastResetDate = some today)
    (hstart : u.usageToday = 0) (hlimit : u.apiLimit = N) :
    (∀ j, (handleRequest (mkDb { u with usageToday := j } k)
        plain endpoint uuid now today).1 = .quotaExceeded ↔ N ≤ j) ∧
    (∀ i < N, ((handleRequest
        (runRequests (mkDb u k) plain endpoint uuid now today i)
        plain endpoint uuid now today).1).isAdmitted = true) ∧
    (handleRequest (runRequests (mkDb u k) plain endpoint uuid now today N)
        plain endpoint uuid now today).1 = .quotaExceeded := by
  refine ⟨?_, ?_, ?_⟩
  · intro j
    have h := handleRequest_single { u with usageToday := j } k []
      plain endpoint uuid now today hkey hact howner
    unfold mkDb
    split at h
    · next hcond =>
      have hc : u.apiLimit ≤ j := hcond
      rw [h]
      simp
      omega
    · next hcond =>
      have hc : ¬u.apiLimit ≤ j := hcond
      rw [h]
      simp [AuthResult.isAdmitted]
      omega
  · intro i hi
    obtain ⟨lu, ls2, hrun⟩ := runRequests_closed plain endpoint uuid now today
      i u k [] hkey hact howner hreset (by omega)
    unfold mkDb
    rw [hrun]
    have h := handleRequest_single { u with usageToday := u.usageToday + i }
      { k with lastUsed := lu, usageCount := k.usageCount + 2 * i } ls2
      plain endpoint uuid now today hkey hact howner
    split at h
    · next hcond =>
      exact absurd (show u.apiLimit ≤ u.usageToday + i from hcond) (by omega)
    · rw [h]
      rfl
  · obtain ⟨lu, ls2, hrun⟩ := runRequests_closed plain endpoint uuid now today
      N u k [] hkey hact howner hreset (by omega)
    unfold mkDb
    rw [hrun]
    have h := handleRequest_single { u with usageToday := u.usageToday + N }
      { k with lastUsed := lu, usageCount := k.usageCount + 2 * N } ls2
      plain endpoint uuid now today hkey hact howner
    split at h
    · next hcond => rw [h]
    · next hcond =>
      exact absurd (show u.apiLimit ≤ u.usageToday + N by omega) hcond

/-- Witness for C3 with `N = 2`: after 2 recorded requests on the sample
store, the third request of the day is rejected with the quota error. -/
theorem quota_denies_exactly_at_limit_witness :
    (handleRequest
        (runRequests (mkDb sampleUser sampleKey)
          "shd_abc" "e" "l9" "t5" "Mon Jan 01 2024" 2)
        "shd_abc" "e" "l9" "t5" "Mon Jan 01 2024").1 = .quotaExceeded :=
  (quota_denies_exactly_at_limit 2 sampleUser sampleKey
    "shd_abc" "e" "l9" "t5" "Mon Jan 01 2024"
    rfl rfl rfl rfl rfl rfl).2.2

/-! ### The double count of an admitted, recorded request -/

/-- C10.  One admitted request that is then recorded through
`logApiUsage` bumps the key record's cumulative `usageCount` by exactly 2
(one bump per `validateApiKey` pass: the middleware's and the redundant
one inside `logApiUsage`) while the owner's daily `usageToday` counter
grows by exactly 1. -/
theorem admitted_request_counts_twice (u : User) (k : ApiKeyRecord)
    (plain endpoint uuid now today : String)
    (hkey : k.key = bcryptHash plain) (hact : k.isActive = true)
    (howner : k.userId = u.id) (hreset : u.lastResetDate = some today)
    (hq : u.usageToday < u.apiLimit) :
    handleRequest (mkDb u k) plain endpoint uuid now today =
      (.admitted u.id k.id,
        { users := [{ u with usageToday := u.usageToday + 1 }]
          apiKeys := [{ k with lastUsed := some now, usageCount := k.usageCount + 2 }]
          logs := pushLog [] { id := uuid, apiKey := jsSubstring plain 8 ++ "..."
                               endpoint := endpoint, timestamp := now } }) := by
  have h := handleRequest_single u k [] plain endpoint uuid now today hkey hact howner
  rw [if_neg (by omega)] at h
  unfold mkDb
  rw [h]
  simp [hreset]

/-- Witness for C10 on the sample store: the post-state has
`usageCount = 2` and `usageToday = 1`. -/
theorem admitted_request_counts_twice_witness :
    handleRequest (mkDb sampleUser sampleKey)
        "shd_abc" "e" "l9" "t5" "Mon Jan 01 2024" =
      (.admitted sampleUser.id sampleKey.id,
        { users := [{ sampleUser with usageToday := sampleUser.usageToday + 1 }]
          apiKeys := [{ sampleKey with
            lastUsed := some "t5", usageCount := sampleKey.usageCount + 2 }]
          logs := pushLog [] { id := "l9", apiKey := jsSubstring "shd_abc" 8 ++ "..."
                               endpoint := "e", timestamp := "t5" } }) :=
  admitted_request_counts_twice sampleUser sampleKey
    "shd_abc" "e" "l9" "t5" "Mon Jan 01 2024" rfl rfl rfl rfl (by decide)

/-! ### The log-to-key join never matches -/

lemma head_eq_of_isPrefixOf (a : Char) (p l : List Char)
    (h : (a :: p).isPrefixOf l = true) : ∃ r, l = a :: r := by
  cases l with
  | nil => simp [List.isPrefixOf] at h
  | cons b r =>
    simp only [List.isPrefixOf, Bool.and_eq_true, beq_iff_eq] at h
    exact ⟨r, by rw [h.1]⟩

lemma cons_not_isPrefixOf_cons (a b : Char) (p s : List Char) (h : ¬a = b) :
    (a :: p).isPrefixOf (b :: s) = false := by
  simp [List.isPrefixOf, h]

/-- Every stored key hash begins with `$2` while every log entry stores a
truncated plaintext beginning with `shd_`, so the `startsWith` join of
`getUserUsage` can never succeed. -/
lemma join_never_matches (logKey storedKey : String)
    (h1 : jsStartsWith logKey "shd_" = true)
    (h2 : jsStartsWith storedKey "$2" = true) :
    jsStartsWith logKey (jsSubstring storedKey 8) = false := by
  unfold jsStartsWith at h1 h2 ⊢
  unfold jsSubstring
  have hd1 : "shd_".data = 's' :: "hd_".data := rfl
  rw [hd1] at h1
  obtain ⟨r1, hr1⟩ := head_eq_of_isPrefixOf _ _ _ h1
  have hd2 : "$2".data = '$' :: "2".data := rfl
  rw [hd2] at h2
  obtain ⟨r2, hr2⟩ := head_eq_of_isPrefixOf _ _ _ h2
  rw [hr1]
  have hdata : (String.mk (storedKey.data.take 8)).data = storedKey.data.take 8 := rfl
  rw [hdata, hr2]
  have ht : ('$' :: r2).take 8 = '$' :: r2.take 7 := rfl
  rw [ht]
  exact cons_not_isPrefixOf_cons _ _ _ _ (by decide)

/-- C9.  `getUserUsage` always reports zero log-derived usage: provided
every stored key hash starts with `$2` (as every bcrypt hash does) and
every log entry holds a truncated `shd_`-prefixed plaintext (as every
entry written by `logApiUsage` for an issued key does), the reported
`totalRequests` and `todayRequests` are 0 and `lastRequest` is `null`,
whatever was logged. -/
theorem getUserUsage_reports_zero (db : DB) (userId : String)
    (toDateStr : String → String) (today : String) (u : User)
    (hu : db.users.find? (fun v => v.id == userId) = some u)
    (hlogs : ∀ log ∈ db.logs, jsStartsWith log.apiKey "shd_" = true)
    (hkeys : ∀ k ∈ db.apiKeys, jsStartsWith k.key "$2" = true) :
    getUserUsage db userId toDateStr today =
      some { totalRequests := 0, todayRequests := 0
             dailyLimit := if u.apiLimit == 0 then 1000 else u.apiLimit
             usageToday := u.usageToday, lastRequest := none } := by
  have hfilter : db.logs.filter (fun log =>
      ((db.apiKeys.filter (fun k => k.userId == userId)).map (fun k => k.key)).any
        (fun key => jsStartsWith log.apiKey (jsSubstring key 8))) = [] := by
    rw [List.filter_eq_nil_iff]
    intro log hlog
    simp only [List.any_eq_true, List.mem_map, List.mem_filter, not_exists, not_and]
    rintro key ⟨k, ⟨hk, _⟩, rfl⟩
    rw [join_never_matches _ _ (hlogs log hlog) (hkeys k hk)]
    simp
  unfold getUserUsage
  rw [hu]
  simp only [Option.map_some', hfilter]
  simp

/-- The concrete store for the C9 witness: one user, one key (bcrypt
hash of `shd_abc`), one recorded log entry for that key. -/
def joinDb : DB :=
  { users := [sampleUser], apiKeys := [sampleKey], logs := [sampleEntry] }

/-- Witness for C9: on `joinDb` the usage report comes back all-zero even
though a request for the user's own key was logged. -/
theorem getUserUsage_reports_zero_witness :
    getUserUsage joinDb "u1" (fun _ => "") "d" =
      some { totalRequests := 0, todayRequests := 0
             dailyLimit := if sampleUser.apiLimit == 0 then 1000 else sampleUser.apiLimit
             usageToday := sampleUser.usageToday, lastRequest := none } :=
  getUserUsage_reports_zero joinDb "u1" (fun _ => "") "d" sampleUser
    (by decide) (by decide) (by decide)

end ApiSpec
